import Mathlib

/-!
Shallow embedding of `src/email_classifier.py` from the
email-application-tracker repository, together with proofs about the
classification pipeline.

The Python module matches case-insensitive regular expressions against
email fields.  We embed the needed fragment of Python's `re` module as an
executable regex engine (a parser from the textual pattern syntax to an
abstract syntax tree, plus a backtracking matcher with capture groups
following leftmost / priority-order match semantics), so that the pattern
tables below can be transcribed verbatim from the source.
-/

set_option maxHeartbeats 4000000
set_option maxRecDepth 100000

namespace EmailClassifier

/-- ASCII whitespace characters matched by the regex class \s
(Python: space, tab, newline, carriage return, vertical tab, form feed). -/
def isPyWs (c : Char) : Bool :=
  c == ' ' || c == '\t' || c == '\n' || c == '\r' || c == '\x0b' || c == '\x0c'

/-- Characters matched by the regex class \w (ASCII): letters, digits, underscore. -/
def isWordCh (c : Char) : Bool :=
  c.isAlpha || c.isDigit || c == '_'

/-- Toggle the case of an ASCII letter (used for case-insensitive class ranges). -/
def otherCase (c : Char) : Char :=
  if c.isUpper then c.toLower else c.toUpper

/-- One item of a regex character class `[...]`. -/
inductive CItem where
  | ch (c : Char)
  | range (lo hi : Char)
  | wsC
  | wdC
  | dgC
deriving DecidableEq

/-- Abstract syntax of the regex fragment used by the classifier. -/
inductive RE where
  | eps
  | ch (c : Char)
  | dot
  | cls (neg : Bool) (items : List CItem)
  | bos
  | eos
  | wb
  | seq (a b : RE)
  | alt (a b : RE)
  | rep (lo : Nat) (hi : Option Nat) (lazy : Bool) (r : RE)
  | grp (n : Nat) (r : RE)
deriving DecidableEq

/-- Does a class item match a character (optionally case-insensitively)? -/
def citemMatch (ci : Bool) (c : Char) : CItem → Bool
  | .ch d => if ci then c.toLower == d.toLower else c == d
  | .range lo hi =>
      (decide (lo ≤ c) && decide (c ≤ hi))
        || (ci && decide (lo ≤ otherCase c) && decide (otherCase c ≤ hi))
  | .wsC => isPyWs c
  | .wdC => isWordCh c
  | .dgC => c.isDigit

/-- Parse the items of a character class, up to the closing bracket. -/
def parseClsItems : List Char → Option (List CItem × List Char)
  | [] => none
  | ']' :: rest => some ([], rest)
  | '\\' :: e :: rest =>
    let item := match e with
      | 's' => CItem.wsC
      | 'w' => CItem.wdC
      | 'd' => CItem.dgC
      | c => CItem.ch c
    (parseClsItems rest).map (fun p => (item :: p.1, p.2))
  | c :: '-' :: d :: rest =>
    if d == ']' then
      some ([CItem.ch c, CItem.ch '-'], rest)
    else
      (parseClsItems rest).map (fun p => (CItem.range c d :: p.1, p.2))
  | c :: rest =>
    (parseClsItems rest).map (fun p => (CItem.ch c :: p.1, p.2))

/-- Parse a character class body, including an optional leading negation. -/
def parseCls : List Char → Option (Bool × List CItem × List Char)
  | '^' :: rest => (parseClsItems rest).map (fun p => (true, p.1, p.2))
  | rest => (parseClsItems rest).map (fun p => (false, p.1, p.2))

/-- Split a leading run of decimal digits. -/
def spanDigits : List Char → List Char × List Char
  | [] => ([], [])
  | c :: rest =>
    if c.isDigit then
      let p := spanDigits rest
      (c :: p.1, p.2)
    else ([], c :: rest)

/-- Decimal value of a digit list. -/
def digitsToNat (l : List Char) : Nat :=
  l.foldl (fun a c => a * 10 + (c.toNat - 48)) 0

/-- Parse the tail of a bounded quantifier `lo,hi}` (the brace was consumed). -/
def braceQuant (s : List Char) : Option (Nat × Nat × List Char) :=
  let p1 := spanDigits s
  if p1.1.isEmpty then none
  else
    match p1.2 with
    | ',' :: r2 =>
      let p2 := spanDigits r2
      if p2.1.isEmpty then none
      else
        match p2.2 with
        | '\x7d' :: r4 => some (digitsToNat p1.1, digitsToNat p2.1, r4)
        | _ => none
    | _ => none

/-- Parsing mode: alternation level or sequence level. -/
inductive PM where
  | al
  | sq

/-- Recursive-descent regex pattern reader.  The state is the next free
capture-group number and the remaining characters; `fuel` bounds the
recursion depth. -/
def parseRE : Nat → PM → Nat → List Char → Option (RE × Nat × List Char)
  | 0, _, _, _ => none
  | fuel + 1, .al, g, s =>
    match parseRE fuel .sq g s with
    | none => none
    | some (r, g2, rest) =>
      match rest with
      | '|' :: rest2 =>
        match parseRE fuel .al g2 rest2 with
        | none => none
        | some (r2, g3, rest3) => some (.alt r r2, g3, rest3)
      | _ => some (r, g2, rest)
  | fuel + 1, .sq, g, s =>
    match s with
    | [] => some (.eps, g, [])
    | '|' :: _ => some (.eps, g, s)
    | ')' :: _ => some (.eps, g, s)
    | c :: rest =>
      let atomRes : Option (RE × Nat × List Char) :=
        match c, rest with
        | '(', '?' :: ':' :: r2 =>
          match parseRE fuel .al g r2 with
          | some (r, g2, ')' :: r3) => some (r, g2, r3)
          | _ => none
        | '(', _ =>
          match parseRE fuel .al (g + 1) rest with
          | some (r, g2, ')' :: r3) => some (.grp g r, g2, r3)
          | _ => none
        | '[', _ =>
          match parseCls rest with
          | some (neg, its, r3) => some (.cls neg its, g, r3)
          | none => none
        | '\\', e :: r2 =>
          let a : RE := match e with
            | 's' => .cls false [CItem.wsC]
            | 'w' => .cls false [CItem.wdC]
            | 'd' => .cls false [CItem.dgC]
            | 'b' => .wb
            | 'n' => .ch '\n'
            | 't' => .ch '\t'
            | x => .ch x
          some (a, g, r2)
        | '\\', [] => none
        | '.', _ => some (.dot, g, rest)
        | '^', _ => some (.bos, g, rest)
        | '$', _ => some (.eos, g, rest)
        | '*', _ => none
        | '+', _ => none
        | '?', _ => none
        | x, _ => some (.ch x, g, rest)
      match atomRes with
      | none => none
      | some (a, g2, r3) =>
        let quantRes : RE × List Char :=
          match r3 with
          | '*' :: '?' :: rr => (.rep 0 none true a, rr)
          | '*' :: rr => (.rep 0 none false a, rr)
          | '+' :: '?' :: rr => (.rep 1 none true a, rr)
          | '+' :: rr => (.rep 1 none false a, rr)
          | '?' :: '?' :: rr => (.rep 0 (some 1) true a, rr)
          | '?' :: rr => (.rep 0 (some 1) false a, rr)
          | '\x7b' :: rr =>
            match braceQuant rr with
            | some (lo, hi, r4) => (.rep lo (some hi) false a, r4)
            | none => (a, r3)
          | _ => (a, r3)
        match parseRE fuel .sq g2 quantRes.2 with
        | none => none
        | some (b, g3, r5) => some (.seq quantRes.1 b, g3, r5)

/-- Parse a whole pattern string (capture groups numbered from 1). -/
def parsePat (p : String) : Option RE :=
  match parseRE (4 * p.length + 16) .al 1 p.data with
  | some (r, _, []) => some r
  | _ => none

/-- Structural size of a regex, used only to compute a sufficient fuel bound. -/
def reSize : RE → Nat
  | .seq a b => reSize a + reSize b + 1
  | .alt a b => reSize a + reSize b + 1
  | .rep _ _ _ r => reSize r + 2
  | .grp _ r => reSize r + 2
  | _ => 1

/-- Captured groups: group number paired with captured text (most recent first). -/
abbrev Caps := List (Nat × String)

/-- Backtracking matcher in continuation-passing style.  `pre` is the character
just before the current position (for `^` and word boundaries), `s` the
remaining input.  Alternatives are tried left first and greedy repetitions
longest first, mirroring Python `re` priority order; `ci` selects
case-insensitive comparison. -/
def reMatch (ci : Bool) : Nat → RE → Option Char → List Char → Caps →
    (Option Char → List Char → Caps → Option Caps) → Option Caps
  | 0, _, _, _, _, _ => none
  | fuel + 1, re, pre, s, caps, k =>
    match re with
    | .eps => k pre s caps
    | .ch c =>
      match s with
      | [] => none
      | x :: xs =>
        if (if ci then x.toLower == c.toLower else x == c) then k (some x) xs caps else none
    | .dot =>
      match s with
      | [] => none
      | x :: xs => if x == '\n' then none else k (some x) xs caps
    | .cls neg items =>
      match s with
      | [] => none
      | x :: xs => if (items.any (citemMatch ci x)) != neg then k (some x) xs caps else none
    | .bos => if pre.isNone then k pre s caps else none
    | .eos =>
      match s with
      | [] => k pre s caps
      | ['\n'] => k pre s caps
      | _ => none
    | .wb =>
      if (match pre with | some c => isWordCh c | none => false)
          != (match s with | x :: _ => isWordCh x | [] => false)
      then k pre s caps else none
    | .seq a b =>
      reMatch ci fuel a pre s caps (fun p2 s2 c2 => reMatch ci fuel b p2 s2 c2 k)
    | .alt a b =>
      match reMatch ci fuel a pre s caps k with
      | some r => some r
      | none => reMatch ci fuel b pre s caps k
    | .grp n r =>
      reMatch ci fuel r pre s caps
        (fun p2 s2 c2 => k p2 s2 ((n, String.mk (s.take (s.length - s2.length))) :: c2))
    | .rep lo hi lz r =>
      match lo with
      | m + 1 =>
        reMatch ci fuel r pre s caps
          (fun p2 s2 c2 => reMatch ci fuel (.rep m (hi.map (· - 1)) lz r) p2 s2 c2 k)
      | 0 =>
        match hi with
        | some 0 => k pre s caps
        | _ =>
          if lz then
            match k pre s caps with
            | some res => some res
            | none =>
              reMatch ci fuel r pre s caps
                (fun p2 s2 c2 =>
                  if s2.length == s.length then none
                  else reMatch ci fuel (.rep 0 (hi.map (· - 1)) lz r) p2 s2 c2 k)
          else
            match reMatch ci fuel r pre s caps
                (fun p2 s2 c2 =>
                  if s2.length == s.length then none
                  else reMatch ci fuel (.rep 0 (hi.map (· - 1)) lz r) p2 s2 c2 k) with
            | some res => some res
            | none => k pre s caps

/-- Try the match at every start position, leftmost first (`re.search`). -/
def searchAux (ci : Bool) (fuel : Nat) (re : RE) : Option Char → List Char → Option Caps
  | pre, s =>
    match reMatch ci fuel re pre s [] (fun _ _ c => some c) with
    | some caps => some caps
    | none =>
      match s with
      | [] => none
      | x :: xs => searchAux ci fuel re (some x) xs

/-- Embedded `re.search`: parse the pattern, then scan the subject string.
Returns the captures of the leftmost match, if any. -/
def reFind (ci : Bool) (pat : String) (s : String) : Option Caps :=
  match parsePat pat with
  | none => none
  | some re => searchAux ci ((reSize re + 4) * (s.length + 4) + 50) re none s.data

/-- Boolean form of `re.search`: does the pattern occur in the string? -/
def reSearchB (ci : Bool) (pat : String) (s : String) : Bool :=
  (reFind ci pat s).isSome

/-- Text captured by group 1 of the leftmost match (Python `match.group(1)`). -/
def reGroup1 (ci : Bool) (pat : String) (s : String) : Option String :=
  (reFind ci pat s).bind (fun caps => (caps.find? (fun p => p.1 == 1)).map (·.2))

/-! ### String helpers mirroring the Python string methods used by the source -/

/-- Python `str.lower()` (ASCII case folding, character by character). -/
def lowerStr (s : String) : String := String.mk (s.data.map Char.toLower)

/-- Python `str.endswith(suffix)`. -/
def endsWithStr (s suf : String) : Bool := suf.data.isSuffixOf s.data

/-- First `n` characters of a string (Python `s[:n]`). -/
def takeStr (n : Nat) (s : String) : String := String.mk (s.data.take n)

/-- Strip characters satisfying `p` from both ends. -/
def stripBoth (p : Char → Bool) (s : String) : String :=
  String.mk (((s.data.dropWhile p).reverse.dropWhile p).reverse)

/-- Python `str.strip()` (whitespace on both ends). -/
def stripWs (s : String) : String := stripBoth isPyWs s

/-- Python `str.strip(' "\x27')` as used on extracted company names. -/
def stripQuote (s : String) : String :=
  stripBoth (fun c => c == ' ' || c == '"' || c == '\x27') s

mutual

/-- Replace every maximal whitespace run by a single space
(Python `re.sub(r'\s+', ' ', s)`). -/
def collapseWs : List Char → List Char
  | [] => []
  | c :: rest => if isPyWs c then ' ' :: collapseWsSkip rest else c :: collapseWs rest

/-- Skip the rest of a whitespace run, then continue collapsing. -/
def collapseWsSkip : List Char → List Char
  | [] => []
  | c :: rest => if isPyWs c then collapseWsSkip rest else c :: collapseWs rest

end

/-- Case-insensitive "starts with" on character lists. -/
def startsWithCI : List Char → List Char → Bool
  | [], _ => true
  | _ :: _, [] => false
  | n :: ns, c :: cs => n.toLower == c.toLower && startsWithCI ns cs

/-- Remove all (non-overlapping, left-to-right, case-insensitive) occurrences
of `nd` (Python `re.sub(re.escape(nd), '', s, flags=re.IGNORECASE)`). -/
def removeAllCIAux (nd : List Char) : List Char → List Char
  | [] => []
  | c :: rest =>
    if startsWithCI nd (c :: rest) then removeAllCIAux nd (rest.drop (nd.length - 1))
    else c :: removeAllCIAux nd rest
termination_by l => l.length
decreasing_by
  · simp only [List.length_drop, List.length_cons]
    omega
  · simp

/-- String wrapper for `removeAllCIAux`. -/
def removeAllCI (nd s : String) : String := String.mk (removeAllCIAux nd.data s.data)

/-- Python `str.capitalize()`: first character upper-cased, rest lower-cased. -/
def capitalizePy (s : String) : String :=
  match s.data with
  | [] => ""
  | c :: rest => String.mk (c.toUpper :: rest.map Char.toLower)

/-- Python `s.split('.')[0]`: the prefix before the first dot. -/
def domainHead (s : String) : String :=
  String.mk (s.data.takeWhile (fun c => c != '.'))

/-! ### Pattern tables, transcribed from `email_classifier.py`.
In the string literals an apostrophe is written `\x27` and braces are
written `\x7b` / `\x7d`; backslashes of the Python raw strings are doubled. -/

def REJECTION_PATTERNS : List (String × ℚ) := [
  ("we\\s+have\\s+decided\\s+to\\s+(move|proceed)\\s+forward\\s+with\\s+other", mkRat 95 100),
  ("we\\s+will\\s+not\\s+be\\s+(moving|going)\\s+forward", mkRat 95 100),
  ("after\\s+careful\\s+(consideration|review).*not\\s+(moving|proceeding)", mkRat 93 100),
  ("unfortunately.*not\\s+(be\\s+)?(moving|proceeding|advancing)\\s+forward", mkRat 93 100),
  ("we\\s+regret\\s+to\\s+inform\\s+you", mkRat 92 100),
  ("we\\s+are\\s+unable\\s+to\\s+offer\\s+you", mkRat 92 100),
  ("your\\s+application.*not\\s+been\\s+selected", mkRat 90 100),
  ("not\\s+(be\\s+)?moving\\s+forward\\s+with\\s+your", mkRat 90 100),
  ("we\\\x27ve\\s+decided\\s+to\\s+pursue\\s+other\\s+candidates", mkRat 90 100),
  ("decided\\s+not\\s+to\\s+move\\s+forward", mkRat 90 100),
  ("position\\s+has\\s+been\\s+filled", mkRat 88 100),
  ("role\\s+has\\s+been\\s+filled", mkRat 88 100),
  ("we\\s+have\\s+chosen\\s+to\\s+move\\s+forward\\s+with\\s+another", mkRat 88 100),
  ("not\\s+the\\s+right\\s+fit", mkRat 82 100),
  ("we\\s+won\\\x27t\\s+be\\s+(moving|proceeding)", mkRat 85 100),
  ("your\\s+candidacy.*will\\s+not", mkRat 85 100),
  ("we\\s+have\\s+filled\\s+(the|this)\\s+(position|role)", mkRat 88 100),
  ("no\\s+longer\\s+(considering|pursuing)", mkRat 85 100),
  ("unable\\s+to\\s+move\\s+forward", mkRat 85 100),
  ("not\\s+a\\s+(good\\s+)?match\\s+(for|at)\\s+this\\s+time", mkRat 80 100),
  ("will\\s+not\\s+be\\s+extending\\s+an\\s+offer", mkRat 92 100)]

def INTERVIEW_TIER1_PATTERNS : List String := [
  "(we\\\x27?d?|i\\\x27?d?)\\s+like\\s+to\\s+invite\\s+you\\s+(to|for)\\s+(an?\\s+)?interview",
  "invite\\s+you\\s+to\\s+(an?\\s+)?(phone|video|virtual|on-?site|technical|panel|final)\\s*(round)?\\s*interview",
  "you\\s+(have\\s+been|are|were)\\s+(selected|chosen|invited)\\s+(for|to)\\s+(an?\\s+)?(interview|screen)",
  "your\\s+interview\\s+(is|has\\s+been)\\s+(scheduled|confirmed|set)",
  "like\\s+to\\s+schedule\\s+(an?\\s+)?interview\\s+with\\s+you",
  "schedule\\s+your\\s+(interview|screen)",
  "moved\\s+you\\s+forward\\s+to\\s+(the|an?)\\s+(interview|screen)",
  "advance(d)?\\s+you\\s+to\\s+(the|an?)\\s+interview",
  "(complete|take)\\s+(your|the|a)\\s+hirevue",
  "invited\\s+to\\s+(complete|take)\\s+(an?\\s+)?(online|virtual|video)\\s+(assessment|evaluation|screen)",
  "(we\\\x27?d?|i\\\x27?d?)\\s+like\\s+you\\s+to\\s+complete\\s+(an?\\s+)?(assessment|evaluation|hirevue)",
  "you\\s+(have\\s+been|are|were)\\s+(selected|chosen|invited)\\s+(for|to)\\s+(an?\\s+)?(assessment|evaluation|coding\\s+challenge|hirevue)",
  "next\\s+step.\x7b0,40\x7d(complete|take)\\s+(an?\\s+)?(assessment|evaluation|hirevue|coding\\s+challenge)",
  "like\\s+you\\s+to\\s+participate\\s+in\\s+(an?\\s+)?(digital\\s+)?(interview|screen|assessment)",
  "participate\\s+in\\s+(an?\\s+)?(digital\\s+)?(interview|screen|assessment).\x7b0,40\x7d(hirevue|hire\\s*vue)",
  "powered\\s+by\\s+(hirevue|hire\\s*vue)",
  "@hirevue\\.com"]

def INTERVIEW_TIER2_KEYWORDS : List String := [
  "phone\\s+screen",
  "phone\\s+interview",
  "video\\s+interview",
  "virtual\\s+interview",
  "on-?site\\s+interview",
  "technical\\s+interview",
  "panel\\s+interview",
  "recruiter\\s+screen",
  "coding\\s+(challenge|assessment)",
  "take-?home\\s+(assignment|assessment|project|test)",
  "hackerrank|codility|leetcode|codesignal",
  "hirevue",
  "online\\s+assessment",
  "(oa|assessment)\\s+(invitation|invite)",
  "pymetrics|karat|spark\\s*hire|hireflix",
  "virtual\\s+(assessment|evaluation)",
  "skills?\\s+(assessment|evaluation|test)"]

def INTERVIEW_ACTION_SIGNALS : List String := [
  "please\\s+(confirm|select|choose|pick|let\\s+us\\s+know)",
  "(click|use)\\s+(the\\s+)?(link|button|calendar)",
  "calendly\\.com|goodtime\\.io|schedule\\.\\w+",
  "book\\s+(a|your)\\s+(time|slot)",
  "pick\\s+a\\s+(time|slot)",
  "(what|when)\\s+(is|are)\\s+your\\s+(availability|available)",
  "please\\s+complete\\s+(the|this|your)",
  "(access|start|begin|launch)\\s+(your|the)\\s+(assessment|evaluation|test|challenge)",
  "(assessment|test|challenge|hirevue)\\s+(link|url|portal)",
  "deadline\\s+to\\s+complete"]

def OFFER_PATTERNS : List (String × ℚ) := [
  ("(pleased|happy|excited|delighted)\\s+to\\s+(extend|offer|present)\\s+you", mkRat 98 100),
  ("we\\s+would\\s+like\\s+to\\s+offer\\s+you", mkRat 98 100),
  ("(extend(ing)?|present(ing)?)\\s+you\\s+(an?\\s+)?(formal\\s+)?offer\\s+of\\s+employment", mkRat 97 100),
  ("your\\s+offer\\s+letter\\s+(is|has\\s+been)\\s+(attached|ready|prepared|sent)", mkRat 96 100),
  ("(attached|enclosed).*your\\s+offer\\s+letter", mkRat 96 100),
  ("(please\\s+)?(review|sign)\\s+your\\s+offer\\s+letter", mkRat 95 100),
  ("we\\s+are\\s+(pleased|excited)\\s+to\\s+welcome\\s+you\\s+to", mkRat 92 100)]

def FOLLOWUP_PATTERNS : List (String × ℚ) := [
  ("(checking\\s+in|following\\s+up|follow\\s+up)\\s+(on|about|regarding)\\s+(your|the|my)\\s+(application|candidacy|interview|submission)", mkRat 88 100),
  ("update\\s+(on|regarding)\\s+your\\s+(application|candidacy|interview|status)", mkRat 88 100),
  ("status\\s+(update|of)\\s+your\\s+(application|candidacy|interview)", mkRat 85 100),
  ("your\\s+application\\s+is\\s+(still\\s+)?(being|under)\\s+(reviewed|consideration)", mkRat 85 100),
  ("we\\s+are\\s+still\\s+(reviewing|processing)\\s+your\\s+(application|candidacy|resume|materials)", mkRat 82 100),
  ("wanted\\s+to\\s+(follow\\s+up|check\\s+in).\x7b0,30\x7d(application|position|role|interview|candidacy)", mkRat 82 100),
  ("(any|an?)\\s+(update|news)\\s+(on|about|regarding)\\s+(your|the|my)\\s+(application|candidacy|interview)", mkRat 80 100)]

def APPLIED_PATTERNS : List (String × ℚ) := [
  ("(thank\\s+you|thanks)\\s+for\\s+(your\\s+)?(applying|application|interest)", mkRat 92 100),
  ("application\\s+(received|confirmed|submitted|has\\s+been)", mkRat 94 100),
  ("we\\s+(have\\s+)?received\\s+your\\s+application", mkRat 94 100),
  ("successfully\\s+(applied|submitted)", mkRat 92 100),
  ("your\\s+application\\s+(for|to|has)", mkRat 85 100),
  ("confirm.*application", mkRat 82 100),
  ("application\\s+confirmation", mkRat 92 100),
  ("you\\s+(have\\s+)?(successfully\\s+)?applied\\s+(for|to)", mkRat 90 100),
  ("application\\s+(is\\s+)?(being|under)\\s+(reviewed|review|consideration)", mkRat 88 100),
  ("we\\s+will\\s+(review|look\\s+over)\\s+your\\s+(application|resume|materials)", mkRat 88 100),
  ("your\\s+(application|submission)\\s+has\\s+been\\s+(received|submitted)", mkRat 94 100),
  ("we\\s+appreciate\\s+your\\s+interest\\s+(in|at)", mkRat 85 100),
  ("your\\s+resume\\s+(has\\s+been|was)\\s+(received|submitted)", mkRat 90 100),
  ("you\\s+(have\\s+)?applied\\s+(to|for)\\s+(the|a|this)", mkRat 88 100)]

def DIRECT_OUTREACH_PATTERNS : List (String × ℚ) := [
  ("(came|come)\\s+across\\s+your\\s+(profile|resume|background|experience)", mkRat 92 100),
  ("(found|saw|noticed)\\s+your\\s+(profile|resume|background)\\s+(on|via|through)", mkRat 92 100),
  ("your\\s+(profile|resume|background|experience)\\s+(caught|stood\\s+out|got)\\s+(my|our)", mkRat 90 100),
  ("(reach(ing)?\\s+out|contact(ing)?\\s+you)\\s+(about|regarding|for)\\s+(an?|the)\\s+(opportunity|position|role|opening)", mkRat 93 100),
  ("(have|got)\\s+(an?|the)\\s+(exciting|great|open|new)\\s+(opportunity|position|role|opening)\\s+(for|that)", mkRat 90 100),
  ("(think|believe)\\s+you\\s+(would|could|might|\\\x27d)\\s+be\\s+(a\\s+)?(great|good|strong|perfect)\\s+(fit|match|candidate)", mkRat 90 100),
  ("(would|will)\\s+you\\s+be\\s+(interested|open)\\s+(in|to)\\s+(discuss|explore|hear|learn|chat)", mkRat 88 100),
  ("(interested\\s+in|open\\s+to)\\s+(discuss|explor|hear|learn|chat|a\\s+new|this)", mkRat 85 100),
  ("(love|like)\\s+to\\s+(discuss|chat|talk|connect)\\s+(about|with\\s+you\\s+about)\\s+(a|an?|the|this)\\s+(role|position|opportunity)", mkRat 90 100),
  ("i\\s+am\\s+(a|an?)\\s+(recruiter|talent|sourcer|headhunter)", mkRat 92 100),
  ("(recruiter|sourcer|talent\\s+acquisition)\\s+(at|from|with)\\s+", mkRat 88 100),
  ("(on\\s+behalf\\s+of|representing)\\s+.\x7b1,40\x7d(looking\\s+for|hiring|seeking)", mkRat 88 100),
  ("(wanted|want|hoping)\\s+to\\s+(see\\s+if|gauge|check)\\s+(you|your)\\s+(interest|availability)", mkRat 88 100)]

def JOB_BOARD_DOMAINS : List String := [
  "indeed.com", "linkedin.com", "greenhouse.io", "lever.co",
  "myworkday.com", "myworkdayjobs.com", "workday.com",
  "smartrecruiters.com", "icims.com", "jobvite.com",
  "applytojob.com", "ashbyhq.com", "breezy.hr",
  "recruitee.com", "jazz.co", "bamboohr.com",
  "taleo.net", "successfactors.com",
  "hirevue.com"]

def NOREPLY_PATTERNS : List String := [
  "no[-_]?reply", "noreply", "do[-_]?not[-_]?reply",
  "mailer[-_]?daemon", "notifications?@",
  "auto[-_]?reply", "automated"]

def DIRECT_OVERRIDE_SENDERS : List String := ["rexpand"]

def INTERVIEW_PLATFORM_DOMAINS : List String := [
  "hirevue.com", "sparkhire.com", "hireflix.com", "karat.com", "pymetrics.com"]

def NOISE_SENDER_PATTERNS : List String := [
  "notifications?[-@].*linkedin",
  "messages-noreply@linkedin",
  "invitations@linkedin",
  "news@linkedin",
  "editors@linkedin",
  "digest-noreply@linkedin",
  "@reddit\\.com",
  "@quora\\.com",
  "@discord\\.com",
  "@slack\\.com",
  "@medium\\.com",
  "@substack\\.com",
  "@stackoverflow\\.com",
  "@stackexchange\\.com",
  "@github\\.com",
  "@meetup\\.com",
  "@eventbrite\\.com",
  "@mailchimp\\.com",
  "@sendgrid\\.(com|net)",
  "@constantcontact\\.com",
  "@hubspot\\.com",
  "newsletter@",
  "digest@",
  "marketing@",
  "promo(tion)?s?@",
  "info@",
  "updates?@",
  "news@",
  "announce(ment)?s?@",
  "@amazon\\.",
  "@paypal\\.",
  "@venmo\\.",
  "@uber\\.com",
  "@doordash\\.com",
  "@spotify\\.com",
  "@netflix\\.com",
  "@apple\\.com",
  "@google\\.(com|accounts)"]

def NOISE_SUBJECT_PATTERNS : List String := [
  "^your\\s+daily\\s+digest",
  "^your\\s+weekly\\s+(digest|summary|update)",
  "^\\d+\\s+new\\s+(notification|connection|message|invitation|endorsement)",
  "connection\\s+request",
  "endorsed\\s+you",
  "skill\\s+endorsement",
  "accepted\\s+your\\s+(invitation|connection)",
  "is\\s+now\\s+a\\s+connection",
  "people\\s+you\\s+may\\s+know",
  "trending\\s+(in|on)\\s+your",
  "newsletter",
  "unsubscribe",
  "subscription",
  "^(re:\\s*)?order\\s+(confirm|ship|deliver)",
  "^(re:\\s*)?receipt\\s+(for|from)",
  "^(re:\\s*)?payment\\s+(confirm|received)",
  "^(re:\\s*)?invoice\\s+#",
  "\\bverify\\s+your\\s+(email|account)\\b",
  "password\\s+(reset|change)",
  "two.factor|2fa|verification\\s+code",
  "sign.in\\s+(attempt|alert)"]

/-- The subject-line definitive "applied" patterns (a local list inside
`classify_email` in the source). -/
def SUBJECT_APPLIED_PATTERNS : List String := [
  "(thank\\s+you|thanks)\\s+for\\s+(your\\s+)?(applying|application|interest)",
  "application\\s+(received|confirmed|submitted)",
  "we\\s+(have\\s+)?received\\s+your\\s+application",
  "application\\s+confirmation",
  "you\\s+(have\\s+)?(successfully\\s+)?applied\\s+(for|to)",
  "your\\s+(application|submission)\\s+has\\s+been\\s+(received|submitted)"]

/-- Suffixes stripped from the sender display name in `_extract_company_name`. -/
def COMPANY_SUFFIXES : List String := [
  " via LinkedIn", " via Indeed", " Careers", " Recruiting",
  " Talent", " Hiring", " HR", " Jobs", " Team"]

/-- Subject-line company-extraction patterns (matched case-sensitively). -/
def COMPANY_SUBJECT_PATTERNS : List String := [
  "(?:at|from|with)\\s+([A-Z][A-Za-z\\s&]+?)(?:\\s*[-–—|]|\\s+for\\s+)",
  "([A-Z][A-Za-z\\s&]+?)\\s+(?:is|has|would)"]

/-- Job-title extraction patterns of `_extract_job_title`. -/
def JOB_TITLE_PATTERNS : List String := [
  "(?:position|role|job|opening)\\s*(?:of|for|:)\\s*(.+?)(?:\\.|,|\\n|$)",
  "(?:applied\\s+(?:for|to)\\s+(?:the\\s+)?)([\\w\\s]+?)(?:\\s+(?:position|role|at|with)|\\.|,|\\n|$)",
  "(?:application\\s+for\\s+(?:the\\s+)?)([\\w\\s]+?)(?:\\s+(?:position|role|at|with)|\\.|,|\\n|$)",
  "(?:interview\\s+for\\s+(?:the\\s+)?)([\\w\\s]+?)(?:\\s+(?:position|role|at|with)|\\.|,|\\n|$)",
  "re:\\s*(.+?)(?:\\s+(?:at|with|-|–)\\s+)"]

/-- Personal webmail domains as listed inside `_is_direct_company_email`. -/
def PERSONAL_DOMAINS_DIRECT : List String := [
  "gmail.com", "yahoo.com", "hotmail.com", "outlook.com", "aol.com", "icloud.com"]

/-- Personal webmail domains as listed inside `_extract_company_name`
(this list omits icloud.com). -/
def PERSONAL_DOMAINS_COMPANY : List String := [
  "gmail.com", "yahoo.com", "hotmail.com", "outlook.com", "aol.com"]

/-! ### Data model: a message record is a Python dict; we model it as an
association list from string keys to string or rational values. -/

/-- A Python dict value: either a string field or a numeric confidence. -/
inductive Val where
  | s (v : String)
  | q (v : ℚ)
deriving DecidableEq

/-- A message record (Python dict, insertion-ordered). -/
abbrev Rec := List (String × Val)

/-- Python `d.get(k, '')` restricted to string values. -/
def dictGet (r : Rec) (k : String) : String :=
  match r.find? (fun p => p.1 == k) with
  | some (_, .s v) => v
  | _ => ""

/-- A field of the record, lower-cased (`email_data.get(k, '').lower()`). -/
def fieldLower (e : Rec) (k : String) : String := lowerStr (dictGet e k)

def subjL (e : Rec) : String := fieldLower e "subject"
def bodyL (e : Rec) : String := fieldLower e "body_text"
def snipL (e : Rec) : String := fieldLower e "snippet"
def sendL (e : Rec) : String := fieldLower e "sender"
def domL (e : Rec) : String := fieldLower e "sender_domain"
def emailL (e : Rec) : String := fieldLower e "sender_email"

/-- The combined text `f"{subject} {snippet} {body}"`. -/
def combinedL (e : Rec) : String := subjL e ++ " " ++ snipL e ++ " " ++ bodyL e

/-- `_is_automated_sender`: does the sender address match a no-reply pattern? -/
def _is_automated_sender (sender_email : String) : Bool :=
  NOREPLY_PATTERNS.any (fun p => reSearchB true p sender_email)

/-- `_is_direct_company_email`: directly from a company (not a job board,
not a no-reply address, not personal webmail)? -/
def _is_direct_company_email (sender_email sender_domain : String) : Bool :=
  if sender_domain == "" then false
  else if JOB_BOARD_DOMAINS.any (fun d => endsWithStr sender_domain d) then false
  else if NOREPLY_PATTERNS.any (fun p => reSearchB true p sender_email) then false
  else if PERSONAL_DOMAINS_DIRECT.contains sender_domain then false
  else true

/-! ### The classification pipeline -/

/-- Result of `classify_email` (the returned dict's four fields). -/
structure ClassificationResult where
  category : String
  confidence : ℚ
  company_name : String
  job_title : String
deriving DecidableEq

/-- Sender-address noise test (first disjunct of the early exit). -/
def noiseSender (e : Rec) : Bool :=
  NOISE_SENDER_PATTERNS.any (fun p => reSearchB true p (emailL e))

/-- Subject-line noise test (second disjunct of the early exit). -/
def noiseSubject (e : Rec) : Bool :=
  NOISE_SUBJECT_PATTERNS.any (fun p => reSearchB true p (subjL e))

/-- The early-exit noise condition `noise_sender or noise_subject`. -/
def isNoise (e : Rec) : Bool := noiseSender e || noiseSubject e

/-- Sender override test (`DIRECT_OVERRIDE_SENDERS` against sender + address). -/
def directOverrideHit (e : Rec) : Bool :=
  DIRECT_OVERRIDE_SENDERS.any (fun p => reSearchB true p (sendL e ++ " " ++ emailL e))

/-- Interview-platform domain override test. -/
def platformHit (e : Rec) : Bool := INTERVIEW_PLATFORM_DOMAINS.contains (domL e)

/-- Subject-line definitive "applied" test. -/
def subjectAppliedHit (e : Rec) : Bool :=
  SUBJECT_APPLIED_PATTERNS.any (fun p => reSearchB true p (subjL e))

/-- Tier-1 interview match on the combined text. -/
def tier1Hit (e : Rec) : Bool :=
  INTERVIEW_TIER1_PATTERNS.any (fun p => reSearchB true p (combinedL e))

/-- Tier-2 interview keyword in the subject line. -/
def tier2SubjHit (e : Rec) : Bool :=
  INTERVIEW_TIER2_KEYWORDS.any (fun p => reSearchB true p (subjL e))

/-- Interview action signal anywhere in the combined text. -/
def actionHit (e : Rec) : Bool :=
  INTERVIEW_ACTION_SIGNALS.any (fun p => reSearchB true p (combinedL e))

/-- The interview entries appended to `results` by the two-tier detection. -/
def interviewResults (e : Rec) : List (String × ℚ) :=
  if tier1Hit e then [("interview", mkRat 95 100)]
  else if tier2SubjHit e && actionHit e then [("interview", mkRat 88 100)]
  else []

/-- Python `max` on two rationals (the larger value; on a tie both agree). -/
def qmax (a b : ℚ) : ℚ := if a ≤ b then b else a

/-- Highest confidence of any matching pattern of a table
(the `best_confidence` loop; 0 when nothing matches). -/
def bestConf (pats : List (String × ℚ)) (text : String) : ℚ :=
  pats.foldl (fun acc pc => if reSearchB true pc.1 text then qmax acc pc.2 else acc) 0

/-- The entry a category contributes to `results` (nothing when no match). -/
def catEntry (cat : String) (pats : List (String × ℚ)) (text : String) :
    List (String × ℚ) :=
  if bestConf pats text > 0 then [(cat, bestConf pats text)] else []

/-- Entries appended by the `for category, patterns in [...]` loop, in its
registration order rejection, offer, follow_up, applied, direct. -/
def catResults (e : Rec) : List (String × ℚ) :=
  catEntry "rejection" REJECTION_PATTERNS (combinedL e)
    ++ catEntry "offer" OFFER_PATTERNS (combinedL e)
    ++ catEntry "follow_up" FOLLOWUP_PATTERNS (combinedL e)
    ++ catEntry "applied" APPLIED_PATTERNS (combinedL e)
    ++ catEntry "direct" DIRECT_OUTREACH_PATTERNS (combinedL e)

/-- The full `results` list before sorting: the interview entry is appended
first, then the five looped categories. -/
def matchResults (e : Rec) : List (String × ℚ) :=
  interviewResults e ++ catResults e

/-- Stable insertion into a list sorted by descending confidence: an element
goes before every element of equal or smaller confidence. -/
def insertDesc (x : String × ℚ) : List (String × ℚ) → List (String × ℚ)
  | [] => [x]
  | y :: ys => if x.2 < y.2 then y :: insertDesc x ys else x :: y :: ys

/-- Stable sort by descending confidence
(Python `results.sort(key=lambda x: x[1], reverse=True)`). -/
def sortDesc : List (String × ℚ) → List (String × ℚ)
  | [] => []
  | x :: xs => insertDesc x (sortDesc xs)

/-- `results` after the in-place sort. -/
def sortedResults (e : Rec) : List (String × ℚ) := sortDesc (matchResults e)

/-- Python `max(c for cat, c in results if cat == 'applied')`
(0 on the empty generator, which the source guards against). -/
def maxAppliedConf (l : List (String × ℚ)) : ℚ :=
  match l.filterMap (fun p => if p.1 == "applied" then some p.2 else none) with
  | [] => 0
  | x :: xs => xs.foldl qmax x

/-- Branch (a) of `_extract_company_name`: the sender display name with known
suffixes stripped, unless it reduces to a no-reply placeholder. -/
def companyFromName (sender_name : String) : Option String :=
  if sender_name != "" then
    let name := COMPANY_SUFFIXES.foldl (fun n suf => removeAllCI suf n) sender_name
    let name := stripQuote name
    if name != "" && name.length > 1
        && !(["no reply", "noreply", "do not reply"].contains (lowerStr name)) then
      some name
    else none
  else none

/-- Branch (b) of `_extract_company_name`: the capitalized leading label of a
non-job-board, non-personal sender domain. -/
def companyFromDomain (sender_domain : String) : Option String :=
  if sender_domain != "" && !(JOB_BOARD_DOMAINS.contains sender_domain) then
    if !(PERSONAL_DOMAINS_COMPANY.contains sender_domain) then
      some (capitalizePy (domainHead sender_domain))
    else none
  else none

/-- Branch (c) of `_extract_company_name`: subject-line extraction
(case-sensitive patterns; `match.group(1).strip()`). -/
def companyFromSubject (subject : String) : Option String :=
  COMPANY_SUBJECT_PATTERNS.findSome? (fun p => (reGroup1 false p subject).map stripWs)

/-- `_extract_company_name`: branches tried in order, first success wins. -/
def _extract_company_name (e : Rec) : String :=
  match companyFromName (dictGet e "sender_name") with
  | some n => n
  | none =>
    match companyFromDomain (dictGet e "sender_domain") with
    | some c => c
    | none =>
      match companyFromSubject (dictGet e "subject") with
      | some c => c
      | none => ""

/-- The pattern loop of `_extract_job_title`: first pattern whose (trimmed,
whitespace-collapsed) group-1 capture has length strictly between 3 and 80;
on a too-short or too-long candidate the loop continues. -/
def jobTitleLoop : List String → String → String
  | [], _ => ""
  | p :: ps, text =>
    match reGroup1 true p text with
    | some g =>
      let title := String.mk (collapseWs (stripWs g).data)
      if 3 < title.length && title.length < 80 then title else jobTitleLoop ps text
    | none => jobTitleLoop ps text

/-- `_extract_job_title`: scans `f"{subject} {body[:1000]}"`. -/
def _extract_job_title (subject body : String) : String :=
  jobTitleLoop JOB_TITLE_PATTERNS (subject ++ " " ++ takeStr 1000 body)

/-- `classify_email`: the full decision procedure of the source. -/
def classify_email (e : Rec) : ClassificationResult :=
  if isNoise e then
    { category := "other", confidence := mkRat 90 100, company_name := "", job_title := "" }
  else if directOverrideHit e then
    { category := "direct", confidence := mkRat 95 100,
      company_name := _extract_company_name e,
      job_title := _extract_job_title (subjL e) (bodyL e) }
  else if platformHit e then
    { category := "interview", confidence := mkRat 97 100,
      company_name := _extract_company_name e,
      job_title := _extract_job_title (subjL e) (bodyL e) }
  else if subjectAppliedHit e then
    { category := "applied", confidence := mkRat 98 100,
      company_name := _extract_company_name e,
      job_title := _extract_job_title (subjL e) (bodyL e) }
  else
    match sortedResults e with
    | [] =>
      { category := "other", confidence := mkRat 50 100,
        company_name := _extract_company_name e,
        job_title := _extract_job_title (subjL e) (bodyL e) }
    | (cat, conf) :: _ =>
      if _is_automated_sender (emailL e) && cat == "interview" then
        if (sortedResults e).any (fun p => p.1 == "applied") then
          { category := "applied", confidence := maxAppliedConf (sortedResults e),
            company_name := _extract_company_name e,
            job_title := _extract_job_title (subjL e) (bodyL e) }
        else
          { category := "applied", confidence := mkRat 75 100,
            company_name := _extract_company_name e,
            job_title := _extract_job_title (subjL e) (bodyL e) }
      else
        { category := cat, confidence := conf,
          company_name := _extract_company_name e,
          job_title := _extract_job_title (subjL e) (bodyL e) }

/-- Write one key into a record dict: overwrite in place when present,
append otherwise (Python `dict` update semantics). -/
def setKey (r : Rec) (k : String) (v : Val) : Rec :=
  if r.any (fun p => p.1 == k) then
    r.map (fun p => if p.1 == k then (k, v) else p)
  else r ++ [(k, v)]

/-- Python `email.update(classification)` for the four result fields,
in the dict's insertion order. -/
def recUpdate (r : Rec) (c : ClassificationResult) : Rec :=
  setKey (setKey (setKey (setKey r "category" (.s c.category))
    "confidence" (.q c.confidence)) "company_name" (.s c.company_name))
    "job_title" (.s c.job_title)

/-- The accumulator loop of `classify_emails`. -/
def classifyEmailsGo : List Rec → List Rec → List Rec
  | [], acc => acc
  | e :: rest, acc => classifyEmailsGo rest (acc ++ [recUpdate e (classify_email e)])

/-- `classify_emails`: classify a list of records, merging the result fields
into each record, preserving order. -/
def classify_emails (emails : List Rec) : List Rec := classifyEmailsGo emails []

/-! ### Specification-side definitions and concrete records used in proofs -/

/-- The first element of a list attaining the maximal confidence, starting
from a default `b`; on equal confidences the earlier element is kept. -/
def firstMaxFrom (b : String × ℚ) : List (String × ℚ) → String × ℚ
  | [] => b
  | y :: ys => if b.2 < y.2 then firstMaxFrom y ys else firstMaxFrom b ys

/-- The first element of a list attaining the maximal confidence. -/
def firstMax? : List (String × ℚ) → Option (String × ℚ)
  | [] => none
  | x :: xs => some (firstMaxFrom x xs)

/-- Lookup of a dict key as an optional value (first binding wins, as in
`List.find?`, matching Python dict access). -/
def lookupVal : Rec → String → Option Val
  | [], _ => none
  | p :: rest, k => if p.1 == k then some p.2 else lookupVal rest k

/-- The processed group-1 candidate each job-title pattern contributes
(trimmed and whitespace-collapsed), in pattern order. -/
def jobTitleCandidates (text : String) : List String :=
  JOB_TITLE_PATTERNS.filterMap
    (fun p => (reGroup1 true p text).map (fun g => String.mk (collapseWs (stripWs g).data)))

/-- Job-title extraction as the specification words it: scan the subject
concatenated with the first 1000 characters of the body against the ordered
pattern list and return the first candidate whose length is strictly between
3 and 80; otherwise the empty string. -/
def jobTitleSpecFn (subject body : String) : String :=
  (((jobTitleCandidates (subject ++ " " ++ takeStr 1000 body)).filter
      (fun t => 3 < t.length && t.length < 80)).head?).getD ""

/-- A record from an interview-platform domain whose subject matches a noise
subject pattern. -/
def exC1 : Rec :=
  [("id", Val.s "m1"), ("subject", Val.s "newsletter"), ("sender", Val.s "a"),
   ("sender_email", Val.s "a@hirevue.com"), ("sender_domain", Val.s "hirevue.com"),
   ("sender_name", Val.s ""), ("snippet", Val.s ""), ("body_text", Val.s ""),
   ("date", Val.s "")]

/-- A record from an interview-platform domain whose body matches rejection
language and which passes the noise and override checks. -/
def exC1w : Rec :=
  [("id", Val.s "m2"), ("subject", Val.s "hello"), ("sender", Val.s "a"),
   ("sender_email", Val.s "a@sparkhire.com"), ("sender_domain", Val.s "sparkhire.com"),
   ("sender_name", Val.s ""), ("snippet", Val.s ""),
   ("body_text", Val.s "we regret to inform you"), ("date", Val.s "")]

/-- A record whose text matches a Tier-1 interview pattern and a 0.95
rejection pattern, from a plain (non-automated) sender. -/
def exC2 : Rec :=
  [("id", Val.s "m3"), ("subject", Val.s "hello"), ("sender", Val.s "bob"),
   ("sender_email", Val.s "bob@corp.com"), ("sender_domain", Val.s "corp.com"),
   ("sender_name", Val.s ""), ("snippet", Val.s ""),
   ("body_text",
    Val.s "we\x27d like to invite you to an interview. we have decided to move forward with other"),
   ("date", Val.s "")]

/-- A record from an automated sender whose text matches both a Tier-1
interview pattern and an applied pattern. -/
def exC3 : Rec :=
  [("id", Val.s "m4"), ("subject", Val.s "hello"), ("sender", Val.s "corp"),
   ("sender_email", Val.s "noreply@corp.com"), ("sender_domain", Val.s "corp.com"),
   ("sender_name", Val.s ""), ("snippet", Val.s ""),
   ("body_text",
    Val.s "we\x27d like to invite you to an interview. thank you for applying."),
   ("date", Val.s "")]

/-- A record from a noise sender with interview-free subject and a body. -/
def exC4 : Rec :=
  [("id", Val.s "m5"), ("subject", Val.s "hi"), ("sender", Val.s "x"),
   ("sender_email", Val.s "news@linkedin.com"), ("sender_domain", Val.s "linkedin.com"),
   ("sender_name", Val.s ""), ("snippet", Val.s ""),
   ("body_text", Val.s "we regret to inform you"), ("date", Val.s "")]

/-- A record whose subject is a definitive application confirmation and whose
sender is automated. -/
def exC5 : Rec :=
  [("id", Val.s "m6"), ("subject", Val.s "thank you for your application"),
   ("sender", Val.s "company"), ("sender_email", Val.s "noreply@company.com"),
   ("sender_domain", Val.s "company.com"), ("sender_name", Val.s ""),
   ("snippet", Val.s ""), ("body_text", Val.s "we have received your application"),
   ("date", Val.s "")]

/-- A record matching no pattern at all, from a trusted company domain. -/
def exC7 : Rec :=
  [("id", Val.s "m7"), ("subject", Val.s "hello"), ("sender", Val.s "bob"),
   ("sender_email", Val.s "bob@corp.com"), ("sender_domain", Val.s "corp.com"),
   ("sender_name", Val.s ""), ("snippet", Val.s ""),
   ("body_text", Val.s "hello world"), ("date", Val.s "")]

/-- A small record with a pre-existing `category` key (to exercise the
overwrite case of the merge). -/
def exC10 : Rec :=
  [("id", Val.s "m8"), ("subject", Val.s "hi"), ("sender_email", Val.s "x@y.com"),
   ("category", Val.s "old")]

/-! ### Lemmas about the stable descending sort and the tie-break -/

theorem insertDesc_cons_head (x y : String × ℚ) (ys : List (String × ℚ)) :
    (insertDesc x (y :: ys)).head? = some (if x.2 < y.2 then y else x) := by
  simp only [insertDesc]
  split <;> simp

theorem firstMaxFrom_cons (x y : String × ℚ) (ys : List (String × ℚ)) :
    firstMaxFrom x (y :: ys) =
      if x.2 < (firstMaxFrom y ys).2 then firstMaxFrom y ys else x := by
  induction ys generalizing x y with
  | nil => simp [firstMaxFrom]
  | cons z zs ih =>
    rw [show firstMaxFrom x (y :: z :: zs)
        = if x.2 < y.2 then firstMaxFrom y (z :: zs) else firstMaxFrom x (z :: zs) from rfl]
    rw [ih x z, ih y z]
    split_ifs <;> first | rfl | (exfalso; linarith)

theorem sortDesc_head (l : List (String × ℚ)) : (sortDesc l).head? = firstMax? l := by
  induction l with
  | nil => rfl
  | cons x xs ih =>
    cases hs : sortDesc xs with
    | nil =>
      rw [hs] at ih
      cases xs with
      | nil => simp [sortDesc, insertDesc, firstMax?, firstMaxFrom]
      | cons y ys => simp [firstMax?] at ih
    | cons h t =>
      rw [hs] at ih
      cases xs with
      | nil => simp [sortDesc] at hs
      | cons y ys =>
        have hh : h = firstMaxFrom y ys := by
          rw [show firstMax? (y :: ys) = some (firstMaxFrom y ys) from rfl] at ih
          exact (Option.some_inj.mp ih.symm).symm
        show (insertDesc x (sortDesc (y :: ys))).head? = firstMax? (x :: y :: ys)
        rw [hs, insertDesc_cons_head,
          show firstMax? (x :: y :: ys) = some (firstMaxFrom x (y :: ys)) from rfl,
          firstMaxFrom_cons, ← hh]

theorem mem_insertDesc {p x : String × ℚ} {l : List (String × ℚ)} :
    p ∈ insertDesc x l ↔ p = x ∨ p ∈ l := by
  induction l with
  | nil => simp [insertDesc]
  | cons y ys ih =>
    simp only [insertDesc]
    split
    · simp only [List.mem_cons, ih]
      tauto
    · simp only [List.mem_cons]

theorem mem_sortDesc {p : String × ℚ} {l : List (String × ℚ)} :
    p ∈ sortDesc l ↔ p ∈ l := by
  induction l with
  | nil => simp [sortDesc]
  | cons x xs ih => simp [sortDesc, mem_insertDesc, ih]

theorem firstMaxFrom_le (b : String × ℚ) (l : List (String × ℚ)) :
    b.2 ≤ (firstMaxFrom b l).2 ∧ ∀ p ∈ l, p.2 ≤ (firstMaxFrom b l).2 := by
  induction l generalizing b with
  | nil => simp [firstMaxFrom]
  | cons y ys ih =>
    rw [show firstMaxFrom b (y :: ys)
        = if b.2 < y.2 then firstMaxFrom y ys else firstMaxFrom b ys from rfl]
    split_ifs with hb
    · obtain ⟨h1, h2⟩ := ih y
      refine ⟨by linarith, ?_⟩
      intro p hp
      rcases List.mem_cons.mp hp with rfl | hp
      · exact h1
      · exact h2 p hp
    · obtain ⟨h1, h2⟩ := ih b
      refine ⟨h1, ?_⟩
      intro p hp
      rcases List.mem_cons.mp hp with rfl | hp
      · linarith
      · exact h2 p hp

/-! ### Lemmas about the entries of the pattern-match result list -/

theorem interviewResults_mem {e : Rec} {p : String × ℚ} (h : p ∈ interviewResults e) :
    p.1 = "interview" ∧ (p.2 = mkRat 95 100 ∨ p.2 = mkRat 88 100) := by
  unfold interviewResults at h
  split at h
  · simp only [List.mem_singleton] at h
    simp [h]
  · split at h
    · simp only [List.mem_singleton] at h
      simp [h]
    · simp at h

theorem catEntry_mem {cat : String} {pats : List (String × ℚ)} {text : String}
    {p : String × ℚ} (h : p ∈ catEntry cat pats text) :
    p = (cat, bestConf pats text) ∧ 0 < bestConf pats text := by
  unfold catEntry at h
  split at h
  next hb =>
    simp only [List.mem_singleton] at h
    exact ⟨h, hb⟩
  next => simp at h

theorem matchResults_cases {e : Rec} {p : String × ℚ} (h : p ∈ matchResults e) :
    (p.1 = "interview" ∧ (p.2 = mkRat 95 100 ∨ p.2 = mkRat 88 100)) ∨
    (p = ("rejection", bestConf REJECTION_PATTERNS (combinedL e))
      ∧ 0 < bestConf REJECTION_PATTERNS (combinedL e)) ∨
    (p = ("offer", bestConf OFFER_PATTERNS (combinedL e))
      ∧ 0 < bestConf OFFER_PATTERNS (combinedL e)) ∨
    (p = ("follow_up", bestConf FOLLOWUP_PATTERNS (combinedL e))
      ∧ 0 < bestConf FOLLOWUP_PATTERNS (combinedL e)) ∨
    (p = ("applied", bestConf APPLIED_PATTERNS (combinedL e))
      ∧ 0 < bestConf APPLIED_PATTERNS (combinedL e)) ∨
    (p = ("direct", bestConf DIRECT_OUTREACH_PATTERNS (combinedL e))
      ∧ 0 < bestConf DIRECT_OUTREACH_PATTERNS (combinedL e)) := by
  unfold matchResults catResults at h
  rcases List.mem_append.mp h with h | h
  · exact Or.inl (interviewResults_mem h)
  · rcases List.mem_append.mp h with h | h
    · rcases List.mem_append.mp h with h | h
      · rcases List.mem_append.mp h with h | h
        · rcases List.mem_append.mp h with h | h
          · exact Or.inr (Or.inl (catEntry_mem h))
          · exact Or.inr (Or.inr (Or.inl (catEntry_mem h)))
        · exact Or.inr (Or.inr (Or.inr (Or.inl (catEntry_mem h))))
      · exact Or.inr (Or.inr (Or.inr (Or.inr (Or.inl (catEntry_mem h)))))
    · exact Or.inr (Or.inr (Or.inr (Or.inr (Or.inr (catEntry_mem h)))))

theorem bestConf_bounds (pats : List (String × ℚ)) (text : String)
    (hall : ∀ q ∈ pats, q.2 ≤ 1) : 0 ≤ bestConf pats text ∧ bestConf pats text ≤ 1 := by
  unfold bestConf
  suffices h : ∀ (ps : List (String × ℚ)) (acc : ℚ), 0 ≤ acc → acc ≤ 1 →
      (∀ q ∈ ps, q.2 ≤ 1) →
      0 ≤ ps.foldl (fun a pc => if reSearchB true pc.1 text then qmax a pc.2 else a) acc ∧
      ps.foldl (fun a pc => if reSearchB true pc.1 text then qmax a pc.2 else a) acc ≤ 1 by
    exact h pats 0 le_rfl (by norm_num) hall
  intro ps
  induction ps with
  | nil => exact fun acc h0 h1 _ => ⟨h0, h1⟩
  | cons q qs ih =>
    intro acc h0 h1 hall2
    have hq : q.2 ≤ 1 := hall2 q (by simp)
    have hrest : ∀ r ∈ qs, r.2 ≤ 1 := fun r hr => hall2 r (by simp [hr])
    simp only [List.foldl_cons]
    cases hs : reSearchB true q.1 text with
    | false =>
      simp only [hs, Bool.false_eq_true, if_false]
      exact ih acc h0 h1 hrest
    | true =>
      simp only [hs, if_true]
      refine ih (qmax acc q.2) ?_ ?_ hrest
      · unfold qmax
        split <;> linarith
      · unfold qmax
        split <;> linarith

theorem rejection_le_one : ∀ q ∈ REJECTION_PATTERNS, q.2 ≤ (1 : ℚ) := by decide
theorem offer_le_one : ∀ q ∈ OFFER_PATTERNS, q.2 ≤ (1 : ℚ) := by decide
theorem followup_le_one : ∀ q ∈ FOLLOWUP_PATTERNS, q.2 ≤ (1 : ℚ) := by decide
theorem applied_le_one : ∀ q ∈ APPLIED_PATTERNS, q.2 ≤ (1 : ℚ) := by decide
theorem direct_le_one : ∀ q ∈ DIRECT_OUTREACH_PATTERNS, q.2 ≤ (1 : ℚ) := by decide

theorem matchResults_bounds {e : Rec} {p : String × ℚ} (h : p ∈ matchResults e) :
    p.1 ∈ (["interview", "rejection", "offer", "follow_up", "applied", "direct"] :
      List String) ∧ 0 ≤ p.2 ∧ p.2 ≤ 1 := by
  rcases matchResults_cases h with ⟨h1, h2⟩ | ⟨h1, h2⟩ | ⟨h1, h2⟩ | ⟨h1, h2⟩ | ⟨h1, h2⟩ | ⟨h1, h2⟩
  · refine ⟨by simp [h1], ?_⟩
    rcases h2 with h2 | h2 <;> rw [h2] <;> constructor <;> norm_num
  · obtain ⟨hb1, hb2⟩ := bestConf_bounds REJECTION_PATTERNS (combinedL e) rejection_le_one
    rw [h1]
    exact ⟨by simp, hb1, hb2⟩
  · obtain ⟨hb1, hb2⟩ := bestConf_bounds OFFER_PATTERNS (combinedL e) offer_le_one
    rw [h1]
    exact ⟨by simp, hb1, hb2⟩
  · obtain ⟨hb1, hb2⟩ := bestConf_bounds FOLLOWUP_PATTERNS (combinedL e) followup_le_one
    rw [h1]
    exact ⟨by simp, hb1, hb2⟩
  · obtain ⟨hb1, hb2⟩ := bestConf_bounds APPLIED_PATTERNS (combinedL e) applied_le_one
    rw [h1]
    exact ⟨by simp, hb1, hb2⟩
  · obtain ⟨hb1, hb2⟩ := bestConf_bounds DIRECT_OUTREACH_PATTERNS (combinedL e) direct_le_one
    rw [h1]
    exact ⟨by simp, hb1, hb2⟩

/-! ### Lemmas about the automated-sender downgrade quantities -/

theorem maxAppliedConf_bounds {l : List (String × ℚ)}
    (h : ∀ p ∈ l, 0 ≤ p.2 ∧ p.2 ≤ 1) : 0 ≤ maxAppliedConf l ∧ maxAppliedConf l ≤ 1 := by
  unfold maxAppliedConf
  cases hf : l.filterMap (fun p => if p.1 == "applied" then some p.2 else none) with
  | nil => norm_num
  | cons x xs =>
    have hmem : ∀ y ∈ x :: xs, 0 ≤ y ∧ y ≤ 1 := by
      intro y hy
      rw [← hf] at hy
      rcases List.mem_filterMap.mp hy with ⟨p, hp, hpy⟩
      have hyp : y = p.2 := by
        by_cases hc : (p.1 == "applied") = true
        · rw [if_pos hc] at hpy
          exact (Option.some_inj.mp hpy).symm
        · rw [if_neg hc] at hpy
          exact absurd hpy (by simp)
      rw [hyp]
      exact h p hp
    have aux : ∀ (ys : List ℚ) (a : ℚ), 0 ≤ a → a ≤ 1 → (∀ y ∈ ys, 0 ≤ y ∧ y ≤ 1) →
        0 ≤ ys.foldl qmax a ∧ ys.foldl qmax a ≤ 1 := by
      intro ys
      induction ys with
      | nil => exact fun a h0 h1 _ => ⟨h0, h1⟩
      | cons z zs ih =>
        intro a h0 h1 hz
        have hzb := hz z (by simp)
        simp only [List.foldl_cons]
        refine ih (qmax a z) ?_ ?_ (fun y hy => hz y (by simp [hy]))
        · unfold qmax
          split <;> linarith [hzb.1]
        · unfold qmax
          split <;> linarith [hzb.2]
    exact aux xs x (hmem x (by simp)).1 (hmem x (by simp)).2 (fun y hy => hmem y (by simp [hy]))

theorem maxAppliedConf_const {l : List (String × ℚ)} {b : ℚ}
    (h1 : ∀ p ∈ l, p.1 = "applied" → p.2 = b)
    (h2 : ∃ p, p ∈ l ∧ p.1 = "applied") :
    maxAppliedConf l = b := by
  unfold maxAppliedConf
  have hall : ∀ y ∈ l.filterMap (fun p => if p.1 == "applied" then some p.2 else none),
      y = b := by
    intro y hy
    rcases List.mem_filterMap.mp hy with ⟨p, hp, hpy⟩
    by_cases hc : (p.1 == "applied") = true
    · rw [if_pos hc] at hpy
      rw [← Option.some_inj.mp hpy]
      exact h1 p hp (by simpa using hc)
    · rw [if_neg hc] at hpy
      exact absurd hpy (by simp)
  cases hf : l.filterMap (fun p => if p.1 == "applied" then some p.2 else none) with
  | nil =>
    exfalso
    rcases h2 with ⟨p, hp, hpa⟩
    have hm : p.2 ∈ l.filterMap (fun p => if p.1 == "applied" then some p.2 else none) :=
      List.mem_filterMap.mpr ⟨p, hp, by simp [hpa]⟩
    rw [hf] at hm
    simp at hm
  | cons x xs =>
    have hx : x = b := hall x (by rw [hf]; simp)
    have hxs : ∀ y ∈ xs, y = b := fun y hy => hall y (by rw [hf]; simp [hy])
    have aux : ∀ ys : List ℚ, (∀ y ∈ ys, y = b) → ys.foldl qmax b = b := by
      intro ys
      induction ys with
      | nil => exact fun _ => rfl
      | cons z zs ih =>
        intro hz
        have hzb : z = b := hz z (by simp)
        simp only [List.foldl_cons, hzb]
        rw [show qmax b b = b from by unfold qmax; simp]
        exact ih (fun y hy => hz y (by simp [hy]))
    rw [hx]
    exact aux xs hxs

theorem applied_entry_mem (e : Rec) (hb : 0 < bestConf APPLIED_PATTERNS (combinedL e)) :
    ("applied", bestConf APPLIED_PATTERNS (combinedL e)) ∈ matchResults e := by
  unfold matchResults catResults
  refine List.mem_append.mpr (Or.inr ?_)
  refine List.mem_append.mpr (Or.inl ?_)
  refine List.mem_append.mpr (Or.inr ?_)
  unfold catEntry
  rw [if_pos hb]
  simp

theorem applied_val {e : Rec} {p : String × ℚ} (h : p ∈ matchResults e)
    (ha : p.1 = "applied") : p.2 = bestConf APPLIED_PATTERNS (combinedL e) := by
  rcases matchResults_cases h with ⟨h1, _⟩ | ⟨h1, _⟩ | ⟨h1, _⟩ | ⟨h1, _⟩ | ⟨h1, _⟩ | ⟨h1, _⟩
  · rw [ha] at h1
    simp at h1
  · rw [h1] at ha
    simp at ha
  · rw [h1] at ha
    simp at ha
  · rw [h1] at ha
    simp at ha
  · rw [h1]
  · rw [h1] at ha
    simp at ha

theorem anyApplied_eq (e : Rec) :
    ((sortedResults e).any (fun p => p.1 == "applied"))
      = decide (0 < bestConf APPLIED_PATTERNS (combinedL e)) := by
  by_cases hb : 0 < bestConf APPLIED_PATTERNS (combinedL e)
  · rw [decide_eq_true hb, List.any_eq_true]
    exact ⟨("applied", bestConf APPLIED_PATTERNS (combinedL e)),
      mem_sortDesc.mpr (applied_entry_mem e hb), by simp⟩
  · rw [decide_eq_false hb, List.any_eq_false]
    intro p hp hpa
    have hmem := mem_sortDesc.mp hp
    have hval : p.1 = "applied" := by simpa using hpa
    rcases matchResults_cases hmem with ⟨h2, _⟩ | ⟨h2, _⟩ | ⟨h2, _⟩ | ⟨h2, _⟩ | ⟨h2, h3⟩ | ⟨h2, _⟩
    · rw [hval] at h2
      simp at h2
    · rw [h2] at hval
      simp at hval
    · rw [h2] at hval
      simp at hval
    · rw [h2] at hval
      simp at hval
    · exact hb h3
    · rw [h2] at hval
      simp at hval

theorem maxApplied_eq (e : Rec) (hb : 0 < bestConf APPLIED_PATTERNS (combinedL e)) :
    maxAppliedConf (sortedResults e) = bestConf APPLIED_PATTERNS (combinedL e) := by
  apply maxAppliedConf_const
  · exact fun p hp hpa => applied_val (mem_sortDesc.mp hp) hpa
  · exact ⟨_, mem_sortDesc.mpr (applied_entry_mem e hb), rfl⟩

/-! ### Lemmas about the batch loop and the dict merge -/

theorem classifyEmailsGo_eq (l : List Rec) :
    ∀ acc : List Rec,
      classifyEmailsGo l acc = acc ++ l.map (fun r => recUpdate r (classify_email r)) := by
  induction l with
  | nil =>
    intro acc
    simp [classifyEmailsGo]
  | cons e rest ih =>
    intro acc
    simp only [classifyEmailsGo, List.map_cons]
    rw [ih]
    simp

theorem lookup_none_of_any_false {r : Rec} {k : String}
    (h : r.any (fun p => p.1 == k) = false) : lookupVal r k = none := by
  induction r with
  | nil => rfl
  | cons a as ih =>
    simp only [List.any_cons, Bool.or_eq_false_iff] at h
    simp only [lookupVal, h.1, Bool.false_eq_true, if_false]
    exact ih h.2

theorem lookup_append_of_none {r : Rec} {k : String} (h : lookupVal r k = none)
    (q : String × Val) : lookupVal (r ++ [q]) k = lookupVal [q] k := by
  induction r with
  | nil => simp
  | cons a as ih =>
    by_cases ha : (a.1 == k) = true
    · simp only [lookupVal, ha, if_true] at h
      simp at h
    · have ha2 : (a.1 == k) = false := by
        revert ha
        cases a.1 == k <;> simp
      simp only [lookupVal, ha2, Bool.false_eq_true, if_false] at h
      simp only [List.cons_append, lookupVal, ha2, Bool.false_eq_true, if_false]
      exact ih h

theorem lookup_map_set (r : Rec) (k : String) (v : Val) :
    lookupVal (r.map (fun p => if p.1 == k then (k, v) else p)) k
      = if r.any (fun p => p.1 == k) then some v else none := by
  induction r with
  | nil => rfl
  | cons a as ih =>
    simp only [List.map_cons, List.any_cons]
    by_cases ha : (a.1 == k) = true
    · rw [if_pos ha]
      simp [lookupVal, ha]
    · rw [if_neg ha]
      have ha2 : (a.1 == k) = false := by
        revert ha
        cases a.1 == k <;> simp
      simp only [lookupVal, ha2, Bool.false_eq_true, if_false, Bool.false_or]
      exact ih

theorem setKey_lookup_self (r : Rec) (k : String) (v : Val) :
    lookupVal (setKey r k v) k = some v := by
  unfold setKey
  split
  next hany => rw [lookup_map_set, if_pos hany]
  next hany =>
    have hf : r.any (fun p => p.1 == k) = false := by
      revert hany
      cases r.any (fun p => p.1 == k) <;> simp
    rw [lookup_append_of_none (lookup_none_of_any_false hf)]
    simp [lookupVal]

theorem lookup_map_set_ne (r : Rec) (k k2 : String) (v : Val) (h : k2 ≠ k) :
    lookupVal (r.map (fun p => if p.1 == k then (k, v) else p)) k2 = lookupVal r k2 := by
  induction r with
  | nil => rfl
  | cons a as ih =>
    simp only [List.map_cons]
    by_cases ha : (a.1 == k) = true
    · rw [if_pos ha]
      have hak : a.1 = k := by simpa using ha
      have hne1 : ((k, v).1 == k2) = false := by
        simp only [beq_eq_false_iff_ne, ne_eq]
        exact fun hc => h hc.symm
      have hne2 : (a.1 == k2) = false := by
        simp only [beq_eq_false_iff_ne, ne_eq, hak]
        exact fun hc => h hc.symm
      simp only [lookupVal, hne1, hne2, Bool.false_eq_true, if_false]
      exact ih
    · rw [if_neg ha]
      simp only [lookupVal]
      by_cases ha2 : (a.1 == k2) = true
      · simp [ha2]
      · have ha3 : (a.1 == k2) = false := by
          revert ha2
          cases a.1 == k2 <;> simp
        simp only [ha3, Bool.false_eq_true, if_false]
        exact ih

theorem lookup_append_single_ne (r : Rec) (k k2 : String) (v : Val) (h : k2 ≠ k) :
    lookupVal (r ++ [(k, v)]) k2 = lookupVal r k2 := by
  induction r with
  | nil =>
    have hne : ((k, v).1 == k2) = false := by
      simp only [beq_eq_false_iff_ne, ne_eq]
      exact fun hc => h hc.symm
    simp [lookupVal, hne]
  | cons a as ih =>
    simp only [List.cons_append, lookupVal]
    by_cases ha : (a.1 == k2) = true
    · simp [ha]
    · have ha3 : (a.1 == k2) = false := by
        revert ha
        cases a.1 == k2 <;> simp
      simp only [ha3, Bool.false_eq_true, if_false]
      exact ih

theorem setKey_lookup_ne (r : Rec) (k k2 : String) (v : Val) (h : k2 ≠ k) :
    lookupVal (setKey r k v) k2 = lookupVal r k2 := by
  unfold setKey
  split
  next => exact lookup_map_set_ne r k k2 v h
  next => exact lookup_append_single_ne r k k2 v h

theorem recUpdate_lookup_frame (r : Rec) (c : ClassificationResult) (k : String)
    (h : k ∉ (["category", "confidence", "company_name", "job_title"] : List String)) :
    lookupVal (recUpdate r c) k = lookupVal r k := by
  simp only [List.mem_cons, List.not_mem_nil, or_false, not_or] at h
  obtain ⟨h1, h2, h3, h4⟩ := h
  unfold recUpdate
  rw [setKey_lookup_ne _ _ _ _ h4, setKey_lookup_ne _ _ _ _ h3,
    setKey_lookup_ne _ _ _ _ h2, setKey_lookup_ne _ _ _ _ h1]

theorem recUpdate_lookup_fields (r : Rec) (c : ClassificationResult) :
    lookupVal (recUpdate r c) "category" = some (.s c.category) ∧
    lookupVal (recUpdate r c) "confidence" = some (.q c.confidence) ∧
    lookupVal (recUpdate r c) "company_name" = some (.s c.company_name) ∧
    lookupVal (recUpdate r c) "job_title" = some (.s c.job_title) := by
  unfold recUpdate
  refine ⟨?_, ?_, ?_, ?_⟩
  · rw [setKey_lookup_ne _ _ _ _ (by decide), setKey_lookup_ne _ _ _ _ (by decide),
      setKey_lookup_ne _ _ _ _ (by decide), setKey_lookup_self]
  · rw [setKey_lookup_ne _ _ _ _ (by decide), setKey_lookup_ne _ _ _ _ (by decide),
      setKey_lookup_self]
  · rw [setKey_lookup_ne _ _ _ _ (by decide), setKey_lookup_self]
  · rw [setKey_lookup_self]

/-! ### Lemmas about job-title extraction -/

theorem jobTitleLoop_eq (ps : List String) (text : String) :
    jobTitleLoop ps text =
      (((ps.filterMap (fun p => (reGroup1 true p text).map
          (fun g => String.mk (collapseWs (stripWs g).data)))).filter
        (fun t => 3 < t.length && t.length < 80)).head?).getD "" := by
  induction ps with
  | nil => rfl
  | cons p ps ih =>
    cases hg : reGroup1 true p text with
    | none =>
      simp only [jobTitleLoop, hg, List.filterMap_cons, Option.map_none']
      exact ih
    | some g =>
      simp only [jobTitleLoop, hg, List.filterMap_cons, Option.map_some']
      by_cases hc : ((3 : Nat) < (String.mk (collapseWs (stripWs g).data)).length
          && (String.mk (collapseWs (stripWs g).data)).length < 80) = true
      · rw [if_pos hc, List.filter_cons, if_pos hc]
        simp
      · rw [if_neg hc, List.filter_cons, if_neg hc]
        exact ih

theorem jobTitleLoop_len (ps : List String) (text : String) :
    jobTitleLoop ps text = "" ∨
      (3 < (jobTitleLoop ps text).length ∧ (jobTitleLoop ps text).length < 80) := by
  induction ps with
  | nil => exact Or.inl rfl
  | cons p ps ih =>
    cases hg : reGroup1 true p text with
    | none =>
      simp only [jobTitleLoop, hg]
      exact ih
    | some g =>
      simp only [jobTitleLoop, hg]
      by_cases hc : ((3 : Nat) < (String.mk (collapseWs (stripWs g).data)).length
          && (String.mk (collapseWs (stripWs g).data)).length < 80) = true
      · rw [if_pos hc]
        right
        simpa [Bool.and_eq_true, decide_eq_true_eq] using hc
      · rw [if_neg hc]
        exact ih

theorem takeStr_idem (b : String) : takeStr 1000 (takeStr 1000 b) = takeStr 1000 b := by
  unfold takeStr
  exact congrArg String.mk (by simp [List.take_take])

/-! ### The claims -/

/-- Claim C1, corrected: a record whose sender_domain is one of the known
interview-platform domains (hirevue.com, sparkhire.com, hireflix.com,
karat.com, pymetrics.com) is classified interview at confidence 0.97
regardless of snippet and body content — provided it first passes the noise
check and the direct-override-sender check, which run earlier and consult
the subject line and the sender address. -/
theorem claimC1_platform_override (e : Rec)
    (hn : isNoise e = false) (ho : directOverrideHit e = false)
    (hp : platformHit e = true) :
    (classify_email e).category = "interview"
      ∧ (classify_email e).confidence = mkRat 97 100 := by
  simp [classify_email, hn, ho, hp]

/-- Witness for claim C1: a concrete sparkhire.com record whose body is pure
rejection language is still classified interview at 0.97. -/
theorem claimC1_platform_override_witness :
    isNoise exC1w = false ∧ directOverrideHit exC1w = false ∧ platformHit exC1w = true ∧
    reSearchB true "we\\s+regret\\s+to\\s+inform\\s+you" (combinedL exC1w) = true ∧
    (classify_email exC1w).category = "interview"
      ∧ (classify_email exC1w).confidence = mkRat 97 100 := by
  have h := claimC1_platform_override exC1w (by decide) (by decide) (by decide)
  exact ⟨by decide, by decide, by decide, by decide, h.1, h.2⟩

/-- Counterexample to claim C1 as stated: a record with sender_domain
hirevue.com whose subject matches a noise subject pattern is classified
other at 0.90, not interview at 0.97 — the noise check runs first and also
inspects the subject. -/
theorem claimC1_counterexample :
    domL exC1 ∈ INTERVIEW_PLATFORM_DOMAINS ∧
    classify_email exC1 =
      { category := "other", confidence := mkRat 90 100,
        company_name := "", job_title := "" } :=
  ⟨by decide, by decide⟩

/-- Claim C2, corrected: the provisional result of step 7 is the first entry
of the results list attaining the maximal confidence, and the registration
order of that list is interview, rejection, offer, follow_up, applied,
direct — the interview entry is appended first, before the five-category
loop, so on a confidence tie interview wins over rejection. -/
theorem claimC2_tiebreak (e : Rec) :
    (sortedResults e).head? = firstMax? (matchResults e) ∧
    ((matchResults e).map Prod.fst).Sublist
      ["interview", "rejection", "offer", "follow_up", "applied", "direct"] := by
  refine ⟨sortDesc_head (matchResults e), ?_⟩
  unfold matchResults
  rw [List.map_append]
  have hce : ∀ (cat : String) (pats : List (String × ℚ)) (text : String),
      ((catEntry cat pats text).map Prod.fst).Sublist [cat] := by
    intro cat pats text
    unfold catEntry
    split
    · simp only [List.map_cons, List.map_nil]
      exact List.Sublist.refl _
    · exact List.nil_sublist _
  have h1 : ((interviewResults e).map Prod.fst).Sublist ["interview"] := by
    unfold interviewResults
    split
    · simp only [List.map_cons, List.map_nil]
      exact List.Sublist.refl _
    · split
      · simp only [List.map_cons, List.map_nil]
        exact List.Sublist.refl _
      · exact List.nil_sublist _
  have h2 : ((catResults e).map Prod.fst).Sublist
      ["rejection", "offer", "follow_up", "applied", "direct"] := by
    unfold catResults
    simp only [List.map_append]
    have hall := List.Sublist.append (List.Sublist.append (List.Sublist.append
      (List.Sublist.append (hce "rejection" REJECTION_PATTERNS (combinedL e))
        (hce "offer" OFFER_PATTERNS (combinedL e)))
      (hce "follow_up" FOLLOWUP_PATTERNS (combinedL e)))
      (hce "applied" APPLIED_PATTERNS (combinedL e)))
      (hce "direct" DIRECT_OUTREACH_PATTERNS (combinedL e))
    simpa using hall
  simpa using List.Sublist.append h1 h2

/-- Counterexample to claim C2 as stated: a record whose text produces a
Tier-1 interview match at 0.95 together with a rejection match at 0.95 is
classified interview, not rejection as the claimed tie order (rejection
first) would demand. -/
theorem claimC2_counterexample :
    matchResults exC2 = [("interview", mkRat 95 100), ("rejection", mkRat 95 100)] ∧
    (classify_email exC2).category = "interview" :=
  ⟨by decide, by decide⟩

/-- Claim C3: a record reaching step 8 with provisional category interview
whose sender address is automated is downgraded to applied — at the
best applied-pattern confidence when some applied pattern matched in step 6,
and at the fixed fallback 0.75 otherwise. -/
theorem claimC3_automated_downgrade (e : Rec) (c : ℚ) (rest : List (String × ℚ))
    (hn : isNoise e = false) (ho : directOverrideHit e = false)
    (hp : platformHit e = false) (hs : subjectAppliedHit e = false)
    (hhead : sortedResults e = ("interview", c) :: rest)
    (ha : _is_automated_sender (emailL e) = true) :
    (classify_email e).category = "applied" ∧
    (classify_email e).confidence =
      (if 0 < bestConf APPLIED_PATTERNS (combinedL e)
        then bestConf APPLIED_PATTERNS (combinedL e) else mkRat 75 100) := by
  have hany := anyApplied_eq e
  by_cases hb : 0 < bestConf APPLIED_PATTERNS (combinedL e)
  · rw [decide_eq_true hb] at hany
    have hmax2 := maxApplied_eq e hb
    rw [hhead] at hany hmax2
    simp [classify_email, hn, ho, hp, hs, hhead, ha, hany, hmax2, if_pos hb]
  · rw [decide_eq_false hb] at hany
    rw [hhead] at hany
    simp [classify_email, hn, ho, hp, hs, hhead, ha, hany, if_neg hb]

/-- Witness for claim C3: a no-reply record matching both a Tier-1 interview
pattern (0.95) and an applied pattern (0.92) is classified applied. -/
theorem claimC3_automated_downgrade_witness :
    (classify_email exC3).category = "applied" ∧
    (classify_email exC3).confidence =
      (if 0 < bestConf APPLIED_PATTERNS (combinedL exC3)
        then bestConf APPLIED_PATTERNS (combinedL exC3) else mkRat 75 100) :=
  claimC3_automated_downgrade exC3 (mkRat 95 100) [("applied", mkRat 92 100)]
    (by decide) (by decide) (by decide) (by decide) (by decide) (by decide)

/-- Claim C4: a record whose sender address matches a noise sender pattern or
whose subject matches a noise subject pattern is classified exactly
other / 0.90 with empty company and title, regardless of body content; the
conclusion holds unconditionally on all other fields because this check is
the first step of the pipeline. -/
theorem claimC4_noise_shortcircuit (e : Rec)
    (h : noiseSender e = true ∨ noiseSubject e = true) :
    classify_email e =
      { category := "other", confidence := mkRat 90 100,
        company_name := "", job_title := "" } := by
  have hn : isNoise e = true := by
    unfold isNoise
    rcases h with h | h <;> simp [h]
  simp [classify_email, hn]

/-- Witness for claim C4: a LinkedIn notification sender with a
rejection-language body is classified other / 0.90 with empty metadata. -/
theorem claimC4_noise_shortcircuit_witness :
    noiseSender exC4 = true ∧
    classify_email exC4 =
      { category := "other", confidence := mkRat 90 100,
        company_name := "", job_title := "" } :=
  ⟨by decide, claimC4_noise_shortcircuit exC4 (Or.inl (by decide))⟩

/-- Claim C5: a record passing the noise, direct-override and
interview-platform checks whose subject alone matches a definitive
application-received phrasing is classified applied at 0.98, whatever the
body says. -/
theorem claimC5_subject_applied_override (e : Rec)
    (hn : isNoise e = false) (ho : directOverrideHit e = false)
    (hp : platformHit e = false) (hs : subjectAppliedHit e = true) :
    (classify_email e).category = "applied"
      ∧ (classify_email e).confidence = mkRat 98 100 := by
  simp [classify_email, hn, ho, hp, hs]

/-- Witness for claim C5: subject "thank you for your application" from
noreply@company.com yields applied / 0.98. -/
theorem claimC5_subject_applied_override_witness :
    isNoise exC5 = false ∧ directOverrideHit exC5 = false ∧ platformHit exC5 = false ∧
    subjectAppliedHit exC5 = true ∧
    (classify_email exC5).category = "applied"
      ∧ (classify_email exC5).confidence = mkRat 98 100 := by
  have h := claimC5_subject_applied_override exC5 (by decide) (by decide) (by decide) (by decide)
  exact ⟨by decide, by decide, by decide, by decide, h.1, h.2⟩

/-- Claim C6: for every record, the category returned by classify_email is
one of the seven enumeration values, and the confidence lies in [0, 1]
(rational confidences are finite by construction). -/
theorem claimC6_closure_and_bounds (e : Rec) :
    (classify_email e).category ∈
      (["applied", "interview", "rejection", "offer", "follow_up", "direct", "other"] :
        List String) ∧
    0 ≤ (classify_email e).confidence ∧ (classify_email e).confidence ≤ 1 := by
  have hothM : ("other" : String) ∈
      (["applied", "interview", "rejection", "offer", "follow_up", "direct", "other"] :
        List String) := by decide
  have hdirM : ("direct" : String) ∈
      (["applied", "interview", "rejection", "offer", "follow_up", "direct", "other"] :
        List String) := by decide
  have hintM : ("interview" : String) ∈
      (["applied", "interview", "rejection", "offer", "follow_up", "direct", "other"] :
        List String) := by decide
  have happM : ("applied" : String) ∈
      (["applied", "interview", "rejection", "offer", "follow_up", "direct", "other"] :
        List String) := by decide
  have hsix : ∀ c ∈ (["interview", "rejection", "offer", "follow_up", "applied",
      "direct"] : List String),
      c ∈ (["applied", "interview", "rejection", "offer", "follow_up", "direct",
        "other"] : List String) := by decide
  have h90 : (0 : ℚ) ≤ mkRat 90 100 ∧ (mkRat 90 100 : ℚ) ≤ 1 := by decide
  have h95 : (0 : ℚ) ≤ mkRat 95 100 ∧ (mkRat 95 100 : ℚ) ≤ 1 := by decide
  have h97 : (0 : ℚ) ≤ mkRat 97 100 ∧ (mkRat 97 100 : ℚ) ≤ 1 := by decide
  have h98 : (0 : ℚ) ≤ mkRat 98 100 ∧ (mkRat 98 100 : ℚ) ≤ 1 := by decide
  have h75 : (0 : ℚ) ≤ mkRat 75 100 ∧ (mkRat 75 100 : ℚ) ≤ 1 := by decide
  have h50 : (0 : ℚ) ≤ mkRat 50 100 ∧ (mkRat 50 100 : ℚ) ≤ 1 := by decide
  unfold classify_email
  split_ifs with h1 h2 h3 h4 h6
  · exact ⟨hothM, h90.1, h90.2⟩
  · exact ⟨hdirM, h95.1, h95.2⟩
  · exact ⟨hintM, h97.1, h97.2⟩
  · exact ⟨happM, h98.1, h98.2⟩
  · cases hms : sortedResults e with
    | nil =>
      simp only [hms]
      exact ⟨hothM, h50.1, h50.2⟩
    | cons hd tl =>
      obtain ⟨cat, conf⟩ := hd
      have hin : (cat, conf) ∈ sortedResults e := by
        rw [hms]
        simp
      have hmem : (cat, conf) ∈ matchResults e := mem_sortDesc.mp hin
      obtain ⟨hcat, hc0, hc1⟩ := matchResults_bounds hmem
      simp only [hms]
      by_cases h5 : (_is_automated_sender (emailL e) && (cat == "interview")) = true
      · rw [if_pos h5, ← hms]
        have hball : ∀ p ∈ sortedResults e, 0 ≤ p.2 ∧ p.2 ≤ 1 :=
          fun p hp => (matchResults_bounds (mem_sortDesc.mp hp)).2
        obtain ⟨m0, m1⟩ := maxAppliedConf_bounds hball
        exact ⟨happM, m0, m1⟩
      · rw [if_neg h5]
        exact ⟨hsix cat hcat, hc0, hc1⟩
  · cases hms : sortedResults e with
    | nil =>
      simp only [hms]
      exact ⟨hothM, h50.1, h50.2⟩
    | cons hd tl =>
      obtain ⟨cat, conf⟩ := hd
      have hin : (cat, conf) ∈ sortedResults e := by
        rw [hms]
        simp
      have hmem : (cat, conf) ∈ matchResults e := mem_sortDesc.mp hin
      obtain ⟨hcat, hc0, hc1⟩ := matchResults_bounds hmem
      simp only [hms]
      by_cases h5 : (_is_automated_sender (emailL e) && (cat == "interview")) = true
      · rw [if_pos h5]
        exact ⟨happM, h75.1, h75.2⟩
      · rw [if_neg h5]
        exact ⟨hsix cat hcat, hc0, hc1⟩

/-- Claim C7: a record passing all four short-circuit checks and matching no
pattern at all is classified other at 0.50; the result is never the
direct / 0.70 domain-trust fallback (that fallback exists only in
`_is_direct_company_email`, which `classify_email` never calls). -/
theorem claimC7_no_match_fallback (e : Rec)
    (hn : isNoise e = false) (ho : directOverrideHit e = false)
    (hp : platformHit e = false) (hs : subjectAppliedHit e = false)
    (hm : matchResults e = []) :
    (classify_email e).category = "other" ∧
    (classify_email e).confidence = mkRat 50 100 ∧
    (classify_email e).category ≠ "direct" ∧
    (classify_email e).confidence ≠ mkRat 70 100 := by
  have hsr : sortedResults e = [] := by
    unfold sortedResults
    rw [hm]
    rfl
  have hres : classify_email e =
      { category := "other", confidence := mkRat 50 100,
        company_name := _extract_company_name e,
        job_title := _extract_job_title (subjL e) (bodyL e) } := by
    simp [classify_email, hn, ho, hp, hs, hsr]
  have hne1 : ("other" : String) ≠ "direct" := by decide
  have hne2 : (mkRat 50 100 : ℚ) ≠ mkRat 70 100 := by decide
  rw [hres]
  exact ⟨rfl, rfl, hne1, hne2⟩

/-- Witness for claim C7: a record matching nothing, whose sender would
qualify as a trusted direct-company address, still yields other / 0.50. -/
theorem claimC7_no_match_fallback_witness :
    matchResults exC7 = [] ∧
    _is_direct_company_email (emailL exC7) (domL exC7) = true ∧
    (classify_email exC7).category = "other" ∧
    (classify_email exC7).confidence = mkRat 50 100 := by
  have h := claimC7_no_match_fallback exC7 (by decide) (by decide) (by decide)
    (by decide) (by decide)
  exact ⟨by decide, by decide, h.1, h.2.1⟩

/-- Claim C8: classify_emails maps each record independently, in order,
dropping nothing: the output has the input's length and its i-th element is
the i-th input merged with the four classification fields computed from that
record alone. -/
theorem claimC8_batch_map (l : List Rec) (i : Nat) :
    (classify_emails l).length = l.length ∧
    (classify_emails l)[i]?
      = (l[i]?).map (fun r => recUpdate r (classify_email r)) := by
  unfold classify_emails
  rw [classifyEmailsGo_eq l []]
  simp [List.getElem?_map]

/-- Claim C9: job-title extraction scans the subject plus only the first 1000
characters of the body, returns the first pattern candidate (trimmed, inner
whitespace collapsed) whose length is strictly between 3 and 80, and the
empty string when no candidate qualifies; any too-short or too-long
candidate contributes nothing. -/
theorem claimC9_job_title (subject body : String) :
    _extract_job_title subject body = jobTitleSpecFn subject body ∧
    _extract_job_title subject body = _extract_job_title subject (takeStr 1000 body) ∧
    (_extract_job_title subject body = "" ∨
      (3 < (_extract_job_title subject body).length ∧
        (_extract_job_title subject body).length < 80)) := by
  refine ⟨?_, ?_, ?_⟩
  · unfold _extract_job_title jobTitleSpecFn jobTitleCandidates
    exact jobTitleLoop_eq _ _
  · unfold _extract_job_title
    rw [takeStr_idem]
  · unfold _extract_job_title
    exact jobTitleLoop_len _ _

/-- Claim C10: the batch output contains, for each input record, that record
merged with the four classification keys: every key outside category,
confidence, company_name and job_title reads the same as in the input
record, and the four classification keys read exactly the classification
result (overwriting any pre-existing value); classify_email itself only
reads the record. -/
theorem claimC10_merge_frame (l : List Rec) (r : Rec) (hr : r ∈ l) :
    recUpdate r (classify_email r) ∈ classify_emails l ∧
    (∀ k : String,
      k ∉ (["category", "confidence", "company_name", "job_title"] : List String) →
      lookupVal (recUpdate r (classify_email r)) k = lookupVal r k) ∧
    lookupVal (recUpdate r (classify_email r)) "category"
      = some (.s (classify_email r).category) ∧
    lookupVal (recUpdate r (classify_email r)) "confidence"
      = some (.q (classify_email r).confidence) ∧
    lookupVal (recUpdate r (classify_email r)) "company_name"
      = some (.s (classify_email r).company_name) ∧
    lookupVal (recUpdate r (classify_email r)) "job_title"
      = some (.s (classify_email r).job_title) := by
  obtain ⟨f1, f2, f3, f4⟩ := recUpdate_lookup_fields r (classify_email r)
  refine ⟨?_, ?_, f1, f2, f3, f4⟩
  · unfold classify_emails
    rw [classifyEmailsGo_eq l []]
    simp only [List.nil_append]
    exact List.mem_map.mpr ⟨r, hr, rfl⟩
  · exact fun k hk => recUpdate_lookup_frame r (classify_email r) k hk

/-- Witness for claim C10 on a record with a pre-existing category key. -/
theorem claimC10_merge_frame_witness :
    recUpdate exC10 (classify_email exC10) ∈ classify_emails [exC10] ∧
    lookupVal (recUpdate exC10 (classify_email exC10)) "subject" = lookupVal exC10 "subject" ∧
    lookupVal (recUpdate exC10 (classify_email exC10)) "category"
      = some (.s (classify_email exC10).category) := by
  have h := claimC10_merge_frame [exC10] exC10 (by simp)
  exact ⟨h.1, h.2.1 "subject" (by decide), h.2.2.1⟩

end EmailClassifier
